import Mathlib

/-!
Verification of the wire-chamber simulation driver (`src/idea_chamber.C`)
and the gas-table generator (`src/gas_generation/generate_he_ic4h10.C`)
against their natural-language specification.

The C++ sources are shallowly embedded: `double` values are modelled as
exact rationals (the arithmetic performed by the code on them — a single
multiplication by 1000 — is exact in this model), the text input stream of
`readTransferFunction` is modelled as a token list with explicit `eofbit`
and `failbit` flags mirroring `std::ifstream` extraction semantics, and the
driver's control flow is modelled as explicit list recursions and event
traces. Behaviour implemented inside the Garfield++ library (which this
repository only calls) is modelled from the specification; each such
definition carries a doc comment beginning `Modelled from the spec:`.
-/

namespace IdeaChamber

/-- A whitespace-separated token of the transfer-function text resource:
either a token that parses as a `double` (`good q`) or one that does not
(`bad`).  Whitespace separating the tokens is implicit. -/
inductive Tok where
  | good (q : ℚ) : Tok
  | bad : Tok
deriving DecidableEq, Repr

/-- The state of the `std::ifstream` opened by `readTransferFunction`
(`src/idea_chamber.C:19`): the remaining tokens, whether whitespace follows
the final token (if not, extracting the final token sets `eofbit`), and the
stream's `eofbit` and `failbit`. -/
structure IStream where
  toks : List Tok
  trailing : Bool
  eofbit : Bool
  failbit : Bool
deriving DecidableEq, Repr

/-- Extraction `infile >> x` of a `double` (`src/idea_chamber.C:29`), following C++
stream-extraction semantics: if the stream is already in an `eof` or `fail`
state the sentry fails and `failbit` is set; extracting from an exhausted
stream sets `eofbit` and `failbit`; a token that does not parse as a number
sets `failbit`; a successful extraction of the final token sets `eofbit`
exactly when no whitespace follows it.  On failure the extracted value is
`0` (the variables are freshly zero-initialised at `src/idea_chamber.C:28`
and discarded on failure, so this choice is unobservable). -/
def readDouble (s : IStream) : ℚ × IStream :=
  if s.failbit || s.eofbit then
    (0, { s with failbit := true })
  else
    match s.toks with
    | [] => (0, { s with eofbit := true, failbit := true })
    | Tok.bad :: _ => (0, { s with failbit := true })
    | Tok.good q :: rest =>
        (q, { s with toks := rest, eofbit := rest.isEmpty && !s.trailing })

theorem readDouble_not_failbit {s : IStream} (h : (readDouble s).2.failbit = false) :
    s.failbit = false ∧ s.eofbit = false ∧
      (readDouble s).2.toks.length + 1 = s.toks.length := by
  unfold readDouble at h ⊢
  by_cases hf : (s.failbit || s.eofbit) = true
  · simp [hf] at h
  · simp only [Bool.not_eq_true] at hf
    rw [Bool.or_eq_false_iff] at hf
    rcases hf with ⟨hf1, hf2⟩
    cases htoks : s.toks with
    | nil => simp [hf1, hf2, htoks] at h
    | cons t rest =>
      cases t with
      | bad => simp [hf1, hf2, htoks] at h
      | good q => simp [hf1, hf2, htoks]

/-- The read loop of `readTransferFunction` (`src/idea_chamber.C:27-33`):
`while (!infile.eof()) { infile >> t >> f; if (infile.eof() ||
infile.fail()) break; times.push_back(1.e3 * t); values.push_back(f); }`.
The accumulators hold the contents of the `times` and `values` vectors. -/
def readLoop (s : IStream) (times values : List ℚ) : List ℚ × List ℚ :=
  if s.eofbit then (times, values)
  else
    if h : (readDouble (readDouble s).2).2.eofbit ||
        (readDouble (readDouble s).2).2.failbit then (times, values)
    else
      readLoop (readDouble (readDouble s).2).2
        (times ++ [1000 * (readDouble s).1])
        (values ++ [(readDouble (readDouble s).2).1])
termination_by s.toks.length
decreasing_by
  rw [Bool.or_eq_true, not_or, Bool.not_eq_true, Bool.not_eq_true] at h
  rcases h with ⟨-, h2⟩
  obtain ⟨h1f, -, hlen2⟩ := readDouble_not_failbit h2
  obtain ⟨-, -, hlen1⟩ := readDouble_not_failbit h1f
  omega

/-- Model of `readTransferFunction` (`src/idea_chamber.C:18-37`): `none` when the
resource cannot be opened (the function prints a diagnostic and returns
`false`); otherwise the pair of vectors passed to
`sensor.SetTransferFunction` at `src/idea_chamber.C:35`. -/
def readTransferFunction (opened : Bool) (toks : List Tok) (trailing : Bool) :
    Option (List ℚ × List ℚ) :=
  if opened then some (readLoop ⟨toks, trailing, false, false⟩ [] []) else none

/-- Reference characterisation of the pairs the read loop retains: it
consumes pairs of well-parsed tokens and stops at the first token that is
missing or malformed; a final pair flush against the end of input (no
trailing whitespace) is dropped because extracting it sets `eofbit`. -/
def parsePairs : List Tok → Bool → List (ℚ × ℚ)
  | Tok.good t :: Tok.good f :: rest, tr =>
      if rest.isEmpty && !tr then [] else (t, f) :: parsePairs rest tr
  | _, _ => []

theorem readLoop_eq_parsePairs (toks : List Tok) (tr : Bool) :
    ∀ ts vs : List ℚ,
      readLoop ⟨toks, tr, false, false⟩ ts vs =
        (ts ++ (parsePairs toks tr).map (fun p => 1000 * p.1),
         vs ++ (parsePairs toks tr).map (fun p => p.2)) := by
  induction toks, tr using parsePairs.induct with
  | case1 t f rest tr hstop =>
    intro ts vs
    have h1 : rest = [] ∧ tr = false := by simpa [List.isEmpty_iff] using hstop
    rw [readLoop]
    simp [readDouble, parsePairs, h1.1, h1.2]
  | case2 t f rest tr hgo ih =>
    intro ts vs
    have h2 : (rest.isEmpty && !tr) = false := by simpa using hgo
    rw [readLoop]
    simp [readDouble, parsePairs, h2, ih]
  | case3 ctoks tr hx =>
    intro ts vs
    cases ctoks with
    | nil => rw [readLoop]; simp [readDouble, parsePairs]
    | cons a l =>
      cases a with
      | bad => rw [readLoop]; simp [readDouble, parsePairs]
      | good t =>
        cases l with
        | nil => cases tr <;> (rw [readLoop]; simp [readDouble, parsePairs])
        | cons b l2 =>
          cases b with
          | bad => rw [readLoop]; simp [readDouble, parsePairs]
          | good f => exact absurd rfl (hx t f l2)

/-- A line of the transfer-function text resource as the specification views
it: `some (t, f)` for a well-formed line holding the pair `(time,
amplitude)`, `none` for a malformed line. -/
def lineToks : Option (ℚ × ℚ) → List Tok
  | some (t, f) => [Tok.good t, Tok.good f]
  | none => [Tok.bad]

/-- Token stream of a line-structured file: the lines' tokens in order,
separated by whitespace (newlines). -/
def fileToks (lines : List (Option (ℚ × ℚ))) : List Tok :=
  (lines.map lineToks).flatten

theorem parsePairs_fileToks (lines : List (Option (ℚ × ℚ))) :
    parsePairs (fileToks lines) true =
      (lines.takeWhile Option.isSome).filterMap id := by
  induction lines with
  | nil => simp [fileToks, parsePairs]
  | cons l rest ih =>
    cases l with
    | none => simp [fileToks, lineToks, parsePairs, List.takeWhile]
    | some p =>
      obtain ⟨t, f⟩ := p
      have hstep : fileToks (some (t, f) :: rest) =
          Tok.good t :: Tok.good f :: fileToks rest := by
        simp [fileToks, lineToks]
      rw [hstep, parsePairs]
      simp [ih, List.takeWhile]

/-- The driver's handling of a failed transfer-function load
(`src/idea_chamber.C:125`): `if (!readTransferFunction(sensor)) return 0;`.
`some c` models `main` returning exit code `c` before any simulation work;
`none` models execution continuing into the event loop. -/
def mainLoadExit (opened : Bool) (toks : List Tok) (trailing : Bool) :
    Option ℕ :=
  match readTransferFunction opened toks trailing with
  | none => some 0
  | some _ => none

/-- An ionisation electron as stored in a Heed cluster
(`cluster.electrons`, consumed at `src/idea_chamber.C:204-210`): creation
position and time. -/
structure Electron where
  x : ℚ
  y : ℚ
  z : ℚ
  t : ℚ
deriving DecidableEq, Repr

/-- The cap on processed electrons, `const int maxElectrons = 200`
(`src/idea_chamber.C:202`). -/
def maxElectrons : ℕ := 200

/-- The inner per-cluster loop (`src/idea_chamber.C:204-211`): for each
electron of the cluster, break once the running counter has reached
`maxElectrons`, otherwise increment the counter and hand the electron to
`drift.DriftElectron`.  Returns the handed electrons in stored order and
the updated counter. -/
def clusterLoop : List Electron → ℕ → List Electron × ℕ
  | [], n => ([], n)
  | e :: es, n =>
      if maxElectrons ≤ n then ([], n)
      else
        let r := clusterLoop es (n + 1)
        (e :: r.1, r.2)

/-- The outer loop over clusters (`src/idea_chamber.C:203-213`), including
the outer `break` once the counter has reached `maxElectrons`. -/
def clustersLoop : List (List Electron) → ℕ → List Electron
  | [], _ => []
  | c :: cs, n =>
      let r := clusterLoop c n
      if maxElectrons ≤ r.2 then r.1
      else r.1 ++ clustersLoop cs r.2

/-- The electrons handed to `drift.DriftElectron` for one track
(`src/idea_chamber.C:200-213`), in order. -/
def processedElectrons (clusters : List (List Electron)) : List Electron :=
  clustersLoop clusters 0

/-- Terminal state of the drift state machine for one electron.  Modelled
from the spec: `DriftLineRKF::DriftElectron` is Garfield++ library code not
under `src/`; per the spec it ends in `Collected`, `Lost` or `Diverged`. -/
inductive DriftStatus where
  | collected
  | lost
  | diverged
deriving DecidableEq, Repr

/-- Modelled from the spec: a `DriftResult` carries the outcome together
with the arrival time and the sampled avalanche gain (meaningful when the
outcome is `collected`). -/
structure DriftResult where
  status : DriftStatus
  arrivalTime : ℚ
  avalancheGain : ℚ
deriving DecidableEq, Repr

/-- The per-track drift batch (`src/idea_chamber.C:203-213`): every handed
electron is processed in order, and the loop continues regardless of the
per-electron outcome — the driver ignores `DriftElectron`'s return value at
`src/idea_chamber.C:210`.  `driftFn` is the per-electron simulator, a
parameter because its internals are Garfield++ library code. -/
def runBatch (driftFn : Electron → DriftResult)
    (clusters : List (List Electron)) : List DriftResult :=
  (processedElectrons clusters).map driftFn

/-- Modelled from the spec: the Signal Accumulator's `Deposit` operation
(`Sensor::AddSignal`, Garfield++ library code not under `src/`) — a
`collected` electron deposits a pulse of amplitude `avalancheGain` at its
arrival time; electrons with `lost` or `diverged` outcome are skipped and
contribute nothing. -/
def deposits (results : List DriftResult) : List (ℚ × ℚ) :=
  results.filterMap fun r =>
    match r.status with
    | DriftStatus.collected => some (r.arrivalTime, r.avalancheGain)
    | DriftStatus.lost => none
    | DriftStatus.diverged => none

/-- The gain-fluctuation configuration passed to
`drift.SetGainFluctuationsPolya(0., 20000.)` at `src/idea_chamber.C:136`:
the Polya shape parameter. -/
def gainShapeTheta : ℚ := 0

/-- The mean gain configured at `src/idea_chamber.C:136`. -/
def gainMean : ℚ := 20000

/-- Modelled from the spec: the two-parameter stochastic avalanche-gain
model of the drift simulator (Garfield++ library code not under `src/`) —
with shape parameter `0` the sampled gain is deterministically the mean
`G`; with nonzero shape it fluctuates by a Polya draw `fluct theta u`,
where `u` is the underlying random number and `fluct` parameterises the
library's sampler. -/
def sampleGain (fluct : ℚ → ℚ → ℚ) (theta G u : ℚ) : ℚ :=
  if theta = 0 then G else G * fluct theta u

/-- Modelled from the spec: the electron drift simulator threads an
explicit pseudo-random-number-generator state through the batch — `stepFn`
maps the current RNG state and one electron to that electron's result and
the successor RNG state (the integrator and sampler internals are
Garfield++ library code); the batch starts from the seed and processes the
electrons in order. -/
def driftBatchFrom (stepFn : ℕ → Electron → DriftResult × ℕ) :
    ℕ → List Electron → List DriftResult
  | _, [] => []
  | rng, e :: es =>
      (stepFn rng e).1 :: driftBatchFrom stepFn (stepFn rng e).2 es

/-- Observable sensor events of the driver's `main`, in program order. -/
inductive Event where
  /-- Event of a successful `readTransferFunction(sensor)` (`src/idea_chamber.C:125`) -/
  | loadTF
  /-- Event of `sensor.ClearSignal()` (`src/idea_chamber.C:126` and `:178`) -/
  | clearSignal
  /-- Event of `sensor.ConvoluteSignals()` (`src/idea_chamber.C:249`) -/
  | convolve
deriving DecidableEq, Repr

/-- The sensor events of one iteration of the track loop
(`src/idea_chamber.C:176-253`): `ClearSignal` at line 178; if the track
produced no electrons the iteration `continue`s at line 197 before any
convolution; otherwise `ConvoluteSignals` runs at line 249 (the possible
`continue` at line 251 comes after it). -/
def trackEvents (totalElectrons : ℕ) : List Event :=
  Event.clearSignal :: (if totalElectrons = 0 then [] else [Event.convolve])

/-- The sensor events of a whole `main` run: if the transfer function
cannot be loaded, `main` returns at `src/idea_chamber.C:125` before any
signal operation; otherwise the load is followed by the `ClearSignal` at
line 126 and the track loop, one entry of `trackElectrons` per track. -/
def mainEvents (opened : Bool) (toks : List Tok) (trailing : Bool)
    (trackElectrons : List ℕ) : List Event :=
  match readTransferFunction opened toks trailing with
  | none => []
  | some _ =>
      Event.loadTF :: Event.clearSignal ::
        (trackElectrons.map trackEvents).flatten

/-- Trace check: between two `clearSignal` events (and before the first),
`convolve` occurs at most once; `k` counts convolutions since the last
clear. -/
def convolveCount : ℕ → List Event → Bool
  | _, [] => true
  | _, Event.clearSignal :: es => convolveCount 0 es
  | k, Event.convolve :: es => decide (k = 0) && convolveCount (k + 1) es
  | k, Event.loadTF :: es => convolveCount k es

/-- Every buffer instance (delimited by `clearSignal`) is convolved at most
once. -/
def atMostOneConvolvePerClear (es : List Event) : Bool :=
  convolveCount 0 es

/-- Trace check: every `convolve` is preceded by a successful `loadTF`. -/
def convolveAfterLoad : Bool → List Event → Bool
  | _, [] => true
  | _, Event.loadTF :: es => convolveAfterLoad true es
  | loaded, Event.convolve :: es => loaded && convolveAfterLoad loaded es
  | loaded, Event.clearSignal :: es => convolveAfterLoad loaded es

/-- No `convolve` before a successful transfer-function load. -/
def convolveOnlyAfterLoad (es : List Event) : Bool :=
  convolveAfterLoad false es

/-- Discrete convolution of buffer `x` with kernel `k`, in time order. -/
def discreteConvolve (k x : List ℚ) : List ℚ :=
  (List.range x.length).map fun n =>
    ((List.range (n + 1)).map fun m => k.getD m 0 * x.getD (n - m) 0).sum

/-- Failure mode of a convolution request. -/
inductive ConvError where
  | missingTransferFunction
deriving DecidableEq, Repr

/-- Modelled from the spec: `Sensor::ConvoluteSignals` (Garfield++ library
code not under `src/`) replaces the buffer by its convolution with the
loaded transfer function and fails with `MissingTransferFunction` when no
transfer function has been loaded. -/
def convoluteSignals (tf : Option (List ℚ × List ℚ)) (buf : List ℚ) :
    Except ConvError (List ℚ) :=
  match tf with
  | none => Except.error ConvError.missingTransferFunction
  | some k => Except.ok (discreteConvolve k.2 buf)

end IdeaChamber

namespace GasGeneration

/-- Number of field-grid points, `const size_t nE = 15`
(`src/gas_generation/generate_he_ic4h10.C:29`). -/
def nE : ℕ := 15

/-- Lower end of the field grid, `const double emin = 100.`
(`src/gas_generation/generate_he_ic4h10.C:30`). -/
def emin : ℝ := 100

/-- Upper end of the field grid, `const double emax = 100000.`
(`src/gas_generation/generate_he_ic4h10.C:31`). -/
def emax : ℝ := 100000

/-- Logarithmic spacing flag, `constexpr bool useLog = true`
(`src/gas_generation/generate_he_ic4h10.C:34`). -/
def useLog : Bool := true

/-- Modelled from the spec: `Medium::SetFieldGrid` in logarithmic mode
(Garfield++ library code not under `src/`, called at
`src/gas_generation/generate_he_ic4h10.C:36`) — `count` values equally
spaced in `log(field)`, `field_i = min * (max/min)^(i/(count-1))`. -/
noncomputable def setFieldGridLog (fmin fmax : ℝ) (count : ℕ) : List ℝ :=
  (List.range count).map fun i : ℕ =>
    fmin * (fmax / fmin) ^ ((i : ℝ) / ((count : ℝ) - 1))

end GasGeneration

namespace IdeaChamber

theorem clusterLoop_eq_take (c : List Electron) :
    ∀ n, clusterLoop c n =
      (c.take (maxElectrons - n), n + (c.take (maxElectrons - n)).length) := by
  induction c with
  | nil => intro n; simp [clusterLoop]
  | cons e es ih =>
    intro n
    by_cases hn : maxElectrons ≤ n
    · have h0 : maxElectrons - n = 0 := by omega
      simp [clusterLoop, hn, h0]
    · have hs : maxElectrons - n = (maxElectrons - (n + 1)) + 1 := by omega
      simp only [clusterLoop, hn, if_false, ih (n + 1), hs, List.take_succ_cons,
        List.length_cons, Prod.mk.injEq]
      exact ⟨trivial, by omega⟩

theorem clustersLoop_eq_take (cs : List (List Electron)) :
    ∀ n, clustersLoop cs n = cs.flatten.take (maxElectrons - n) := by
  induction cs with
  | nil => intro n; simp [clustersLoop]
  | cons c cs ih =>
    intro n
    rw [clustersLoop, clusterLoop_eq_take, List.flatten_cons,
      List.take_append_eq_append_take]
    simp only [List.length_take, inf_eq_min]
    by_cases hn : maxElectrons ≤ n + min (maxElectrons - n) c.length
    · rw [if_pos hn]
      have h0 : maxElectrons - n - c.length = 0 := by omega
      rw [h0]
      simp
    · rw [if_neg hn, ih]
      have heq : maxElectrons - (n + min (maxElectrons - n) c.length) =
          maxElectrons - n - c.length := by omega
      rw [heq]

theorem deposits_cons (r : DriftResult) (rs : List DriftResult) :
    deposits (r :: rs) =
      (match r.status with
        | DriftStatus.collected => [(r.arrivalTime, r.avalancheGain)]
        | DriftStatus.lost => []
        | DriftStatus.diverged => []) ++ deposits rs := by
  cases hs : r.status <;> simp [deposits, List.filterMap_cons, hs]

theorem deposits_length (rs : List DriftResult) :
    (deposits rs).length =
      rs.countP fun r => r.status == DriftStatus.collected := by
  induction rs with
  | nil => simp [deposits]
  | cons r rs ih =>
    cases hs : r.status <;>
      simp [deposits_cons, hs, List.countP_cons, ih]

theorem convolveCount_flatten_trackEvents (tracks : List ℕ) :
    ∀ k, convolveCount k ((tracks.map trackEvents).flatten) = true := by
  induction tracks with
  | nil => intro k; simp [convolveCount]
  | cons n rest ih =>
    intro k
    by_cases hn : n = 0 <;>
      simp [trackEvents, hn, convolveCount, ih]

theorem convolveAfterLoad_true (es : List Event) :
    convolveAfterLoad true es = true := by
  induction es with
  | nil => rfl
  | cons e es ih => cases e <;> simp [convolveAfterLoad, ih]

theorem deposits_filter_collected (rs : List DriftResult) :
    deposits rs =
      deposits (rs.filter fun s => s.status == DriftStatus.collected) := by
  induction rs with
  | nil => rfl
  | cons r rs ih =>
    cases hs : r.status <;>
      simp [List.filter_cons, hs, deposits_cons, ih]

theorem parsePairs_append_bad (pre post : List Tok) (tr : Bool) :
    parsePairs (pre ++ Tok.bad :: post) tr = parsePairs (pre ++ [Tok.bad]) tr := by
  induction pre, tr using parsePairs.induct with
  | case1 t f rest tr hstop =>
    have h1 : rest = [] ∧ tr = false := by simpa [List.isEmpty_iff] using hstop
    simp [h1.1, h1.2, parsePairs]
  | case2 t f rest tr hgo ih =>
    simp [parsePairs, ih]
  | case3 ctoks tr hx =>
    cases ctoks with
    | nil => simp [parsePairs]
    | cons a l =>
      cases a with
      | bad => simp [parsePairs]
      | good t =>
        cases l with
        | nil => simp [parsePairs]
        | cons b l2 =>
          cases b with
          | bad => simp [parsePairs]
          | good f => exact absurd rfl (hx t f l2)

end IdeaChamber

open IdeaChamber in
/-- C1 counterexample: for the file with lines `1 2`, `abc`, `3 4` the
loader keeps only the pair from the first line — the malformed second line
makes the read loop `break` (`src/idea_chamber.C:30`), so the well-formed
third line is not loaded, contradicting the claim that the loaded samples
are exactly those of all well-formed lines. -/
theorem transfer_malformed_not_skipped_cex :
    readTransferFunction true (fileToks [some (1, 2), none, some (3, 4)]) true
      = some ([1000], [2]) ∧
    ([(1000 : ℚ)], [(2 : ℚ)]) ≠
      ((([some ((1 : ℚ), (2 : ℚ)), none, some (3, 4)].filterMap id).map
          fun p => 1000 * p.1),
        ([some ((1 : ℚ), (2 : ℚ)), none, some (3, 4)].filterMap id).map
          fun p => p.2) := by
  constructor
  · rw [readTransferFunction, if_pos rfl, readLoop_eq_parsePairs,
      parsePairs_fileToks]
    simp [List.takeWhile]
  · simp

open IdeaChamber in
/-- C1 (amended): a malformed line is neither skipped nor does it make the
load fail — it stops loading at the first token that does not parse as a
number.  The loader reads whitespace-separated tokens with no regard to
line structure: for every opened token stream the loaded samples are
exactly the consecutive well-parsed token pairs before the first
unparseable token (`parsePairs`, which also drops a final pair flush
against end-of-file), the load still returns success, and nothing after the
first unparseable token is ever loaded.  A malformed line made of parseable
numbers is not even detected: a lone number pairs with the next line's
first number — the file with lines `1` and `2 3` loads the single pair
`(1, 2)`, the time rescaled to `1000`. -/
theorem transfer_load_stops_at_first_bad_token
    (toks pre post : List Tok) (trailing : Bool) :
    readTransferFunction true toks trailing =
      some ((parsePairs toks trailing).map (fun p => 1000 * p.1),
        (parsePairs toks trailing).map (fun p => p.2)) ∧
    parsePairs (pre ++ Tok.bad :: post) trailing =
      parsePairs (pre ++ [Tok.bad]) trailing ∧
    readTransferFunction true [Tok.good 1, Tok.good 2, Tok.good 3] true =
      some ([1000], [2]) := by
  refine ⟨?_, parsePairs_append_bad pre post trailing, ?_⟩
  · rw [readTransferFunction, if_pos rfl, readLoop_eq_parsePairs]
    simp
  · rw [readTransferFunction, if_pos rfl, readLoop_eq_parsePairs]
    simp [parsePairs]

open IdeaChamber in
/-- C2 counterexample: when the transfer-function resource cannot be
opened, loading fails, and `main` returns at `src/idea_chamber.C:125` with
exit code `0` — there is no non-zero exit code, contradicting the claim. -/
theorem load_failure_exit_zero_cex :
    readTransferFunction false [] true = none ∧
    mainLoadExit false [] true = some 0 ∧
    ¬ ∃ c, mainLoadExit false [] true = some c ∧ c ≠ 0 := by
  refine ⟨rfl, rfl, ?_⟩
  rintro ⟨c, hc, hne⟩
  exact hne (Option.some.inj hc).symm

open IdeaChamber in
/-- C2 (amended): if the transfer-function resource cannot be opened,
loading fails (`ResourceUnavailable`), and the failure is fatal to the run
that needed it — `main` returns before any simulation work — but the driver
terminates with exit code `0`, not a non-zero code. -/
theorem load_failure_fatal_but_exit_zero (toks : List Tok) (trailing : Bool) :
    readTransferFunction false toks trailing = none ∧
    mainLoadExit false toks trailing = some 0 := by
  constructor <;> simp [readTransferFunction, mainLoadExit]

open IdeaChamber in
/-- C6: for every track whose clusters contain `N` electrons in total, the
drift loop (`src/idea_chamber.C:200-213`) hands exactly `min N 200`
electrons to the drift simulator — the capped prefix of the clusters'
electrons concatenated in cluster order, each cluster's electrons in their
stored order. -/
theorem drift_loop_hands_capped_prefix (clusters : List (List Electron)) :
    processedElectrons clusters = clusters.flatten.take maxElectrons ∧
    (processedElectrons clusters).length = min clusters.flatten.length 200 := by
  have h := clustersLoop_eq_take clusters 0
  constructor
  · simpa [processedElectrons] using h
  · rw [processedElectrons, h]
    simp [maxElectrons, Nat.min_comm]

open IdeaChamber in
/-- C7: the drift loop hands every capped electron to the simulator and
continues regardless of the per-electron outcome (one result per handed
electron — a `diverged` outcome never aborts the batch), and `lost` or
`diverged` electrons contribute nothing to the signal buffer, so the number
of deposits equals the number of `collected` electrons. -/
theorem diverged_recoverable_deposits_match
    (driftFn : Electron → DriftResult) (clusters : List (List Electron)) :
    (runBatch driftFn clusters).length =
      (processedElectrons clusters).length ∧
    (deposits (runBatch driftFn clusters)).length =
      (runBatch driftFn clusters).countP
        (fun r => r.status == DriftStatus.collected) ∧
    deposits (runBatch driftFn clusters) =
      deposits ((runBatch driftFn clusters).filter
        fun s => s.status == DriftStatus.collected) :=
  ⟨by simp [runBatch], deposits_length _, deposits_filter_collected _⟩

open IdeaChamber in
/-- C4: with shape parameter `0` the sampled avalanche gain is exactly the
mean gain `G`, whatever the underlying random draw; with the configuration
of `src/idea_chamber.C:136` (`theta = 0`, `G = 20000`) a collected electron
deposits amplitude `20000`. -/
theorem gain_shape_zero_deterministic (fluct : ℚ → ℚ → ℚ) (G u tm : ℚ) :
    sampleGain fluct 0 G u = G ∧
    gainShapeTheta = 0 ∧ gainMean = 20000 ∧
    deposits
        [⟨DriftStatus.collected, tm, sampleGain fluct gainShapeTheta gainMean u⟩]
      = [(tm, 20000)] := by
  refine ⟨by simp [sampleGain], rfl, rfl, ?_⟩
  simp [deposits, sampleGain, gainShapeTheta, gainMean]

open IdeaChamber in
/-- C5: over the driver's whole event trace, every signal-buffer instance
(delimited by `ClearSignal`) is convolved at most once, `Convolve` never
occurs before a successful transfer-function load (if the load fails `main`
returns before any signal operation), and requesting a convolution with no
transfer function loaded fails with `MissingTransferFunction`. -/
theorem convolve_once_per_buffer_and_guarded
    (opened : Bool) (toks : List Tok) (trailing : Bool)
    (tracks : List ℕ) (buf : List ℚ) :
    atMostOneConvolvePerClear (mainEvents opened toks trailing tracks) = true ∧
    convolveOnlyAfterLoad (mainEvents opened toks trailing tracks) = true ∧
    convoluteSignals none buf =
      Except.error ConvError.missingTransferFunction := by
  refine ⟨?_, ?_, rfl⟩ <;>
    rw [mainEvents] <;>
    cases readTransferFunction opened toks trailing
  · rfl
  · rw [atMostOneConvolvePerClear]
    simp only [convolveCount]
    exact convolveCount_flatten_trackEvents tracks 0
  · rfl
  · rw [convolveOnlyAfterLoad]
    simp only [convolveAfterLoad]
    exact convolveAfterLoad_true _

open IdeaChamber in
/-- C8 counterexample: the loader does not enforce monotonicity — the file
with lines `5 1` and `3 2` loads successfully, and the stored times
`[5000, 3000]` are not strictly increasing, contradicting the claim that
stored times are strictly increasing for every successfully loaded
resource. -/
theorem transfer_times_not_sorted_cex :
    readTransferFunction true (fileToks [some (5, 1), some (3, 2)]) true
      = some ([5000, 3000], [1, 2]) ∧
    ¬ List.Chain' (· < ·) [(5000 : ℚ), 3000] := by
  constructor
  · rw [readTransferFunction, if_pos rfl, readLoop_eq_parsePairs,
      parsePairs_fileToks]
    simp [List.takeWhile]
    norm_num
  · norm_num [List.chain'_cons]

open IdeaChamber in
/-- C8 (amended): for every successfully loaded transfer-function resource,
each stored sample time equals 1000 times the parsed time and the
amplitudes are stored unchanged; the stored times are strictly increasing
whenever the parsed times are (the loader itself does not enforce
monotonicity). -/
theorem transfer_times_rescaled (opened : Bool) (toks : List Tok)
    (trailing : Bool) (ts vs : List ℚ)
    (h : readTransferFunction opened toks trailing = some (ts, vs)) :
    ts = (parsePairs toks trailing).map (fun p => 1000 * p.1) ∧
    vs = (parsePairs toks trailing).map (fun p => p.2) ∧
    (List.Chain' (· < ·) ((parsePairs toks trailing).map fun p => p.1) →
      List.Chain' (· ≤ ·) ts) := by
  rw [readTransferFunction] at h
  cases opened with
  | false => simp at h
  | true =>
    rw [if_pos rfl, readLoop_eq_parsePairs] at h
    simp only [List.nil_append, Option.some.injEq, Prod.mk.injEq] at h
    refine ⟨h.1.symm, h.2.symm, ?_⟩
    intro hmono
    rw [← h.1, List.chain'_map]
    rw [List.chain'_map] at hmono
    exact hmono.imp fun a b hab =>
      le_of_lt (mul_lt_mul_of_pos_left hab (by norm_num))

open IdeaChamber in
/-- C8 witness: the two-line file `1 2`, `3 4` loads to times
`[1000, 3000]` and values `[2, 4]`, and the conclusion — rescaling,
unchanged amplitudes, and order preservation — holds there. -/
theorem transfer_times_rescaled_witness :
    readTransferFunction true (fileToks [some (1, 2), some (3, 4)]) true
      = some ([1000, 3000], [2, 4]) ∧
    ([(1000 : ℚ), 3000] =
        (parsePairs (fileToks [some (1, 2), some (3, 4)]) true).map
          (fun p => 1000 * p.1) ∧
      [(2 : ℚ), 4] =
        (parsePairs (fileToks [some (1, 2), some (3, 4)]) true).map
          (fun p => p.2) ∧
      (List.Chain' (· < ·)
          ((parsePairs (fileToks [some (1, 2), some (3, 4)]) true).map
            fun p => p.1) →
        List.Chain' (· ≤ ·) [(1000 : ℚ), 3000])) := by
  have h1 : readTransferFunction true (fileToks [some (1, 2), some (3, 4)]) true
      = some ([1000, 3000], [2, 4]) := by
    rw [readTransferFunction, if_pos rfl, readLoop_eq_parsePairs,
      parsePairs_fileToks]
    simp [List.takeWhile]
    norm_num
  exact ⟨h1, transfer_times_rescaled true _ true _ _ h1⟩

open IdeaChamber in
/-- C9: the drift simulator is deterministic given a fixed random seed —
with the RNG state threaded explicitly, two runs with the same seed and the
same electrons (same positions, times, and the same field/table closure
`stepFn`) produce the same sequence of drift results. -/
theorem drift_batch_deterministic
    (stepFn : ℕ → Electron → DriftResult × ℕ)
    (seed₁ seed₂ : ℕ) (es₁ es₂ : List Electron)
    (hseed : seed₁ = seed₂) (hes : es₁ = es₂) :
    driftBatchFrom stepFn seed₁ es₁ = driftBatchFrom stepFn seed₂ es₂ := by
  rw [hseed, hes]

open IdeaChamber in
/-- C9 witness: determinism instantiated at seed `7` and a concrete
one-electron batch. -/
theorem drift_batch_deterministic_witness :
    (7 : ℕ) = 7 ∧ ([⟨0, 0, 0, 0⟩] : List Electron) = [⟨0, 0, 0, 0⟩] ∧
    driftBatchFrom
        (fun n e => (⟨DriftStatus.collected, e.t, 1⟩, n + 1)) 7 [⟨0, 0, 0, 0⟩] =
      driftBatchFrom
        (fun n e => (⟨DriftStatus.collected, e.t, 1⟩, n + 1)) 7 [⟨0, 0, 0, 0⟩] :=
  ⟨rfl, rfl,
    drift_batch_deterministic _ 7 7 [⟨0, 0, 0, 0⟩] [⟨0, 0, 0, 0⟩] rfl rfl⟩

open IdeaChamber in
/-- C10: whenever the loader passes its result to the sensor
(`src/idea_chamber.C:35`), the times vector and the values vector have the
same length and the entries at each index come from the same parsed pair —
a pair is appended to both vectors only after both of its numbers were read
successfully (both tokens of the pair parsed, `src/idea_chamber.C:30-32`). -/
theorem transfer_vectors_aligned (opened : Bool) (toks : List Tok)
    (trailing : Bool) (ts vs : List ℚ)
    (h : readTransferFunction opened toks trailing = some (ts, vs)) :
    ts.length = vs.length ∧
    ts.length = (parsePairs toks trailing).length ∧
    ∀ i, i < ts.length →
      ts.getD i 0 = 1000 * ((parsePairs toks trailing).getD i (0, 0)).1 ∧
      vs.getD i 0 = ((parsePairs toks trailing).getD i (0, 0)).2 := by
  rw [readTransferFunction] at h
  cases opened with
  | false => simp at h
  | true =>
    rw [if_pos rfl, readLoop_eq_parsePairs] at h
    simp only [List.nil_append, Option.some.injEq, Prod.mk.injEq] at h
    obtain ⟨hts, hvs⟩ := h
    subst hts hvs
    refine ⟨by simp, by simp, ?_⟩
    intro i hi
    simp only [List.length_map] at hi
    constructor
    · rw [List.getD_eq_getElem _ _ (by simpa using hi),
        List.getD_eq_getElem _ _ hi]
      simp
    · rw [List.getD_eq_getElem _ _ (by simpa using hi),
        List.getD_eq_getElem _ _ hi]
      simp

open IdeaChamber in
/-- C10 witness: the single-line file `7 8` loads to aligned vectors
`[7000]` and `[8]`, and the index-wise correspondence holds there. -/
theorem transfer_vectors_aligned_witness :
    readTransferFunction true (fileToks [some (7, 8)]) true
      = some ([7000], [8]) ∧
    (([(7000 : ℚ)] : List ℚ).length = ([(8 : ℚ)] : List ℚ).length ∧
      ([(7000 : ℚ)] : List ℚ).length =
        (parsePairs (fileToks [some (7, 8)]) true).length ∧
      ∀ i, i < ([(7000 : ℚ)] : List ℚ).length →
        ([(7000 : ℚ)] : List ℚ).getD i 0 =
          1000 * ((parsePairs (fileToks [some (7, 8)]) true).getD i (0, 0)).1 ∧
        ([(8 : ℚ)] : List ℚ).getD i 0 =
          ((parsePairs (fileToks [some (7, 8)]) true).getD i (0, 0)).2) := by
  have h1 : readTransferFunction true (fileToks [some (7, 8)]) true
      = some ([7000], [8]) := by
    rw [readTransferFunction, if_pos rfl, readLoop_eq_parsePairs,
      parsePairs_fileToks]
    simp [List.takeWhile]
    norm_num
  exact ⟨h1, transfer_vectors_aligned true _ true _ _ h1⟩

open GasGeneration in
/-- C3: for every valid grid spec (`count ≥ 2`, `min > 0`, `max > min`) the
logarithmic Field Grid Sampler produces exactly `count` strictly increasing
values with `values[0] = min`, `values[count-1] = max`, and value `i` equal
to `min * (max/min)^(i/(count-1))`. -/
theorem field_grid_log_valid (fmin fmax : ℝ) (count : ℕ)
    (hc : 2 ≤ count) (hmin : 0 < fmin) (hlt : fmin < fmax) :
    (setFieldGridLog fmin fmax count).length = count ∧
    (setFieldGridLog fmin fmax count).Pairwise (· < ·) ∧
    (setFieldGridLog fmin fmax count).getD 0 0 = fmin ∧
    (setFieldGridLog fmin fmax count).getD (count - 1) 0 = fmax ∧
    ∀ i, i < count →
      (setFieldGridLog fmin fmax count).getD i 0 =
        fmin * (fmax / fmin) ^ ((i : ℝ) / ((count : ℝ) - 1)) := by
  have hc2 : (2 : ℝ) ≤ (count : ℝ) := by exact_mod_cast hc
  have hdpos : (0 : ℝ) < (count : ℝ) - 1 := by linarith
  have hr : 1 < fmax / fmin := (one_lt_div hmin).mpr hlt
  have hgetD : ∀ i, i < count →
      (setFieldGridLog fmin fmax count).getD i 0 =
        fmin * (fmax / fmin) ^ ((i : ℝ) / ((count : ℝ) - 1)) := by
    intro i hi
    rw [setFieldGridLog, List.getD_eq_getElem _ _ (by simpa using hi)]
    simp
  refine ⟨by simp [setFieldGridLog], ?_, ?_, ?_, hgetD⟩
  · rw [setFieldGridLog, List.pairwise_map]
    refine (List.pairwise_lt_range count).imp ?_
    intro a b hab
    have hx : (a : ℝ) / ((count : ℝ) - 1) < (b : ℝ) / ((count : ℝ) - 1) := by
      apply div_lt_div_of_pos_right _ hdpos
      exact_mod_cast hab
    exact mul_lt_mul_of_pos_left
      ((Real.rpow_lt_rpow_left_iff hr).mpr hx) hmin
  · rw [hgetD 0 (by omega)]
    simp
  · rw [hgetD (count - 1) (by omega)]
    have hcast : ((count - 1 : ℕ) : ℝ) = (count : ℝ) - 1 := by
      have h1 : 1 ≤ count := by omega
      push_cast [h1]
      ring
    rw [hcast, div_self (ne_of_gt hdpos), Real.rpow_one, mul_comm,
      div_mul_cancel₀ _ (ne_of_gt hmin)]

open GasGeneration in
/-- C3 witness: the configured grid of the gas generator —
`{count = 15, min = 100, max = 100000, log}` — is a valid spec, and in
particular `values[0] = 100` and `values[14] = 100000`. -/
theorem field_grid_log_valid_witness :
    nE = 15 ∧ emin = 100 ∧ emax = 100000 ∧ useLog = true ∧
    2 ≤ nE ∧ (0 : ℝ) < emin ∧ emin < emax ∧
    ((setFieldGridLog emin emax nE).length = nE ∧
      (setFieldGridLog emin emax nE).Pairwise (· < ·) ∧
      (setFieldGridLog emin emax nE).getD 0 0 = emin ∧
      (setFieldGridLog emin emax nE).getD (nE - 1) 0 = emax ∧
      ∀ i, i < nE →
        (setFieldGridLog emin emax nE).getD i 0 =
          emin * (emax / emin) ^ ((i : ℝ) / ((nE : ℝ) - 1))) :=
  ⟨rfl, rfl, rfl, rfl, by norm_num [nE], by norm_num [emin],
    by norm_num [emin, emax],
    field_grid_log_valid emin emax nE (by norm_num [nE]) (by norm_num [emin])
      (by norm_num [emin, emax])⟩
